import Mathlib

/-!
Verification development for the codewind project-link registry and
status/lifecycle event model (spec sections 3, 4.1, 4.3, 7, 8).

The `Links` module implementation (`src/pfe/portal/modules/project/Links.js`)
and the `projectStatusController` implementation are not part of the
source tree available here; only the unit tests for `Links` and the
`Filewatcher` interface declarations are. The definitions below are
therefore modelled from the spec, kept consistent with the observable
behaviour pinned down by the unit tests (`Links.test.js`).

JavaScript values that may be absent (`undefined`), `null`, or an empty
string are modelled as `Option String`, with `falsy` capturing the
JavaScript falsiness test used on required fields.
-/

/-- Modelled from the spec: JavaScript falsiness for an optional string
field — missing (`undefined`), `null`, or the empty string are falsy. -/
def falsy : Option String → Bool
  | none => true
  | some s => s == ""

/-- Modelled from the spec (section 3): a `Link` record. `projectID`,
`projectURL` and `envName` are the required fields; `linkType` stands for
the optional pass-through fields (the JS object's `type`, etc.), which are
unvalidated. Each field is `Option String` since a candidate link handed
to `add` may lack any of them. -/
structure Link where
  projectID : Option String
  projectURL : Option String
  envName : Option String
  linkType : Option String
deriving Repr, DecidableEq

/-- Modelled from the spec (section 7): the error taxonomy shared by the
Link Store (raised as `ProjectLinkError` codes in the JS source) and the
status machine. -/
inductive ErrorCode where
  | INVALID_PARAMETERS
  | NOT_FOUND
  | EXISTS
deriving Repr, DecidableEq

/-- Modelled from the spec: `envNameExists(links, envName)` — true iff some
link of the list has exactly the given `envName` (the unit test pins
`envNameExists([{envName:'existing'}], 'existing') = true`). -/
def envNameExists (links : List Link) (envName : String) : Bool :=
  links.any (fun link => link.envName == some envName)

/-- Modelled from the spec (section 4.1, validation algorithm for `add`):
reject with `INVALID_PARAMETERS` if any required field is falsy, then with
`EXISTS` if the `envName` is already present in the current set; otherwise
the link is accepted as-is. -/
def validateLink (newLink : Link) (links : List Link) : Except ErrorCode Link :=
  if falsy newLink.projectID || falsy newLink.projectURL || falsy newLink.envName then
    .error .INVALID_PARAMETERS
  else if envNameExists links (newLink.envName.getD "") then
    .error .EXISTS
  else
    .ok newLink

/-- The fixed environment-file name used by the Link Store. -/
def linksFileName : String := ".codewind-project-links.env"

/-- Modelled from the spec: `path.join(directory, fileName)` restricted to
the shapes used here (the unit test pins `join('', f) = f`). -/
def joinPath (directory fileName : String) : String :=
  if directory == "" then fileName else directory ++ "/" ++ fileName

/-- Modelled from the spec (section 4.1): the Link Store's in-memory state —
an ordered list `_links` and the fixed relative file path. -/
structure Links where
  _links : List Link
  filePath : String
deriving Repr, DecidableEq

/-- Modelled from the spec (section 4.1, construction): `new Links(directory,
args)` takes the optional pre-existing link list verbatim (defaulting to
empty) and computes the fixed file path; no validation is applied. -/
def Links.new (directory : String) (args : Option (List Link)) : Links :=
  { _links := args.getD [], filePath := joinPath directory linksFileName }

/-- Modelled from the spec: one `envName=projectURL` pair, as produced for
`getEnvPairs` (required fields are present on every validly added link). -/
def envPair (link : Link) : String :=
  link.envName.getD "" ++ "=" ++ link.projectURL.getD ""

/-- Modelled from the spec: `getAll()` returns the full ordered link list. -/
def Links.getAll (links : Links) : List Link := links._links

/-- Modelled from the spec: `get(envName)` returns the link whose `envName`
matches, failing with `NOT_FOUND` if absent. -/
def Links.get (links : Links) (envName : String) : Except ErrorCode Link :=
  match links._links.find? (fun link => link.envName == some envName) with
  | some link => .ok link
  | none => .error .NOT_FOUND

/-- Modelled from the spec: `getEnvPairs()` maps each link, in list order,
to its `envName=projectURL` string. -/
def Links.getEnvPairs (links : Links) : List String := links._links.map envPair

/-- Modelled from the spec (section 4.1, file write): the content written by
`writeEnvironmentFile` — one line per pair, each terminated by a newline
(the unit test pins `['env1=url1','env2=url2']` to
`"env1=url1\nenv2=url2\n"`). -/
def writeEnvironmentFile (envPairs : List String) : String :=
  String.join (envPairs.map (fun pair => pair ++ "\n"))

/-- A Link Store together with the content of its environment file on disk
(`none` when the file has never been written). Mutating operations rewrite
the file from the current list; nothing else touches it. -/
structure LinksState where
  links : Links
  file : Option String
deriving Repr, DecidableEq

/-- Commit a mutated link list: install it in the store and fully overwrite
the environment file with the serialization of the new list. -/
def commitLinks (st : LinksState) (newLinks : List Link) : LinksState :=
  let links : Links := { st.links with _links := newLinks }
  { links := links, file := some (writeEnvironmentFile links.getEnvPairs) }

/-- Modelled from the spec (section 4.1): `add(newLink)` validates against
the full current set; on success appends and rewrites the file; on failure
the state is untouched. -/
def LinksState.add (st : LinksState) (newLink : Link) :
    Except ErrorCode Unit × LinksState :=
  match validateLink newLink st.links._links with
  | .error e => (.error e, st)
  | .ok link => (.ok (), commitLinks st (st.links._links ++ [link]))

/-- Replace the first link whose `envName` matches, mutating its `envName`
and `projectURL` in place; all other links and fields are untouched. -/
def updateFirst (links : List Link) (envName : String)
    (newEnvName newProjectURL : Option String) : List Link :=
  match links with
  | [] => []
  | link :: rest =>
    if link.envName == some envName then
      { link with envName := newEnvName, projectURL := newProjectURL } :: rest
    else
      link :: updateFirst rest envName newEnvName newProjectURL

/-- Modelled from the spec (section 4.1): `update(envName, newEnvName,
newProjectURL)` — `NOT_FOUND` if no link has `envName`; `INVALID_PARAMETERS`
if either new value is blank; `EXISTS` if the new name changed and collides
with an existing `envName`; otherwise mutates the found link in place and
rewrites the file. -/
def LinksState.update (st : LinksState) (envName : String)
    (newEnvName newProjectURL : Option String) :
    Except ErrorCode Unit × LinksState :=
  if !(envNameExists st.links._links envName) then
    (.error .NOT_FOUND, st)
  else if falsy newEnvName || falsy newProjectURL then
    (.error .INVALID_PARAMETERS, st)
  else if newEnvName != some envName && envNameExists st.links._links (newEnvName.getD "") then
    (.error .EXISTS, st)
  else
    (.ok (), commitLinks st (updateFirst st.links._links envName newEnvName newProjectURL))

/-- Modelled from the spec (section 4.1): `delete(envName)` removes the
matching link (`NOT_FOUND` if absent) and rewrites the file. -/
def LinksState.delete (st : LinksState) (envName : String) :
    Except ErrorCode Unit × LinksState :=
  if !(envNameExists st.links._links envName) then
    (.error .NOT_FOUND, st)
  else
    (.ok (), commitLinks st (st.links._links.filter (fun link => link.envName != some envName)))

/-- The invariant of spec section 3: within one project's link set, the
`envName` values are pairwise distinct. -/
def distinctEnvNames (links : List Link) : Prop :=
  (links.map Link.envName).Nodup

instance (links : List Link) : Decidable (distinctEnvNames links) := by
  unfold distinctEnvNames; infer_instance

/-- One mutating Link Store operation. -/
inductive LinkOp where
  | addOp (newLink : Link)
  | updateOp (envName : String) (newEnvName newProjectURL : Option String)
  | deleteOp (envName : String)
deriving Repr

/-- Apply one operation to a Link Store state; a failing operation leaves
the state untouched. -/
def applyOp (st : LinksState) : LinkOp → Except ErrorCode Unit × LinksState
  | .addOp newLink => st.add newLink
  | .updateOp envName newEnvName newProjectURL => st.update envName newEnvName newProjectURL
  | .deleteOp envName => st.delete envName

/-- Run a sequence of operations, keeping the state reached after each
(failed operations are no-ops on the state). -/
def runOps (st : LinksState) : List LinkOp → LinksState
  | [] => st
  | op :: ops => runOps (applyOp st op).2 ops

/-- Modelled from the spec (section 4.3): the two status channels tracked
independently per project; the JS `type` field carries `'appState'` or
`'buildState'` (a missing `type` is `none` below). -/
inductive StatusType where
  | appState
  | buildState
deriving Repr, DecidableEq

/-- Modelled from the spec (sections 4.2, 4.3): the two status-changed
event kinds (`projectStatusChanged` payload carrying `appStatus` resp.
`buildStatus` in the JS interface declarations). -/
inductive StatusEventKind where
  | appStatusChanged
  | buildStatusChanged
deriving Repr, DecidableEq

/-- Modelled from the spec: a status-changed event, carrying the supplied
status and the optional auxiliary fields from the update request. -/
structure StatusEvent where
  kind : StatusEventKind
  projectID : String
  status : String
  errorMsg : Option String
  detailedStatus : Option String
deriving Repr, DecidableEq

/-- Modelled from the spec (section 4.3 and the `updateStatus` interface
declaration): the update-status request; required fields are `projectID`,
`type` and `status`, the rest are optional pass-through payload fields. -/
structure UpdateStatusParams where
  projectID : Option String
  statusType : Option StatusType
  status : Option String
  errorMsg : Option String
  detailedStatus : Option String
deriving Repr, DecidableEq

/-- Modelled from the spec (section 4.3): per-project state of the
status/lifecycle machine — the set of known projects and the current
status of each channel, as association lists keyed by project ID. -/
structure StatusMachine where
  knownProjects : List String
  appStatuses : List (String × String)
  buildStatuses : List (String × String)
deriving Repr, DecidableEq

/-- Record a project's current status on one channel, replacing any prior
entry for that project. -/
def setStatus (statuses : List (String × String)) (projectID status : String) :
    List (String × String) :=
  (projectID, status) :: statuses.filter (fun entry => entry.1 != projectID)

/-- The event kind corresponding to a status channel. -/
def kindOf : StatusType → StatusEventKind
  | .appState => .appStatusChanged
  | .buildState => .buildStatusChanged

/-- Record the new status as current on the channel named by the type. -/
def recordStatus (m : StatusMachine) (projectID : String) (t : StatusType)
    (status : String) : StatusMachine :=
  match t with
  | .appState => { m with appStatuses := setStatus m.appStatuses projectID status }
  | .buildState => { m with buildStatuses := setStatus m.buildStatuses projectID status }

/-- Modelled from the spec (section 4.3): `updateStatus` — fails
`INVALID_PARAMETERS` if `projectID`, `type` or `status` is missing, fails
`NOT_FOUND` if the project is unknown, otherwise records the new status as
current and emits exactly one corresponding status-changed event carrying
the full payload. The third component is the list of events emitted by
this one call. -/
def updateStatus (m : StatusMachine) (req : UpdateStatusParams) :
    Except ErrorCode Unit × StatusMachine × List StatusEvent :=
  match req.projectID, req.statusType, req.status with
  | some projectID, some t, some status =>
    if projectID == "" || status == "" then
      (.error .INVALID_PARAMETERS, m, [])
    else if m.knownProjects.contains projectID then
      (.ok (), recordStatus m projectID t status,
        [{ kind := kindOf t, projectID := projectID, status := status,
           errorMsg := req.errorMsg, detailedStatus := req.detailedStatus }])
    else
      (.error .NOT_FOUND, m, [])
  | _, _, _ => (.error .INVALID_PARAMETERS, m, [])

/-- The link the unit tests add (`dummyLink` in `Links.test.js`). -/
def dummyLink : Link :=
  { projectID := some "dummyID", projectURL := some "projectURL",
    envName := some "ENV_NAME", linkType := none }

/-- A freshly constructed, empty Link Store over a directory with no
environment file. -/
def emptyLinksState : LinksState := { links := Links.new "" none, file := none }

lemma envNameExists_eq_false {links : List Link} {e : String} :
    envNameExists links e = false ↔ ∀ l ∈ links, l.envName ≠ some e := by
  simp [envNameExists]

lemma envNameExists_eq_true {links : List Link} {e : String} :
    envNameExists links e = true ↔ ∃ l ∈ links, l.envName = some e := by
  simp [envNameExists]

lemma commitLinks_links (st : LinksState) (ls : List Link) :
    (commitLinks st ls).links._links = ls := rfl

lemma commitLinks_file (st : LinksState) (ls : List Link) :
    (commitLinks st ls).file =
      some (String.join (ls.map (fun link => envPair link ++ "\n"))) := by
  simp [commitLinks, writeEnvironmentFile, Links.getEnvPairs, List.map_map]
  rfl

lemma validateLink_ok {newLink link : Link} {links : List Link}
    (h : validateLink newLink links = .ok link) :
    link = newLink ∧ falsy newLink.projectID = false ∧ falsy newLink.projectURL = false ∧
      falsy newLink.envName = false ∧
      envNameExists links (newLink.envName.getD "") = false := by
  unfold validateLink at h
  split at h
  · simp at h
  · split at h
    · simp at h
    · rename_i h1 h2
      simp only [Except.ok.injEq] at h
      simp only [Bool.or_eq_true, not_or, Bool.not_eq_true] at h1
      exact ⟨h.symm, h1.1.1, h1.1.2, h1.2, by simpa using h2⟩

lemma update_ok_inv {st : LinksState} {e : String} {nE nU : Option String}
    (h : (st.update e nE nU).1 = .ok ()) :
    envNameExists st.links._links e = true ∧ falsy nE = false ∧ falsy nU = false ∧
      (nE != some e && envNameExists st.links._links (nE.getD "")) = false ∧
      (st.update e nE nU).2 = commitLinks st (updateFirst st.links._links e nE nU) := by
  cases hex : envNameExists st.links._links e with
  | false => simp [LinksState.update, hex] at h
  | true =>
    cases hnE : falsy nE with
    | true => simp [LinksState.update, hex, hnE] at h
    | false =>
      cases hnU : falsy nU with
      | true => simp [LinksState.update, hex, hnE, hnU] at h
      | false =>
        cases hcol : (nE != some e && envNameExists st.links._links (nE.getD "")) with
        | true => simp [LinksState.update, hex, hnE, hnU, hcol] at h
        | false =>
          exact ⟨rfl, rfl, rfl, rfl, by simp [LinksState.update, hex, hnE, hnU, hcol]⟩

lemma updateFirst_split {links : List Link} {e : String} (nE nU : Option String)
    (h : envNameExists links e = true) :
    ∃ pre link post,
      links = pre ++ link :: post ∧
      (∀ l ∈ pre, l.envName ≠ some e) ∧
      link.envName = some e ∧
      updateFirst links e nE nU = pre ++ { link with envName := nE, projectURL := nU } :: post := by
  induction links with
  | nil => simp [envNameExists] at h
  | cons hd tl ih =>
    by_cases hhd : hd.envName = some e
    · exact ⟨[], hd, tl, by simp, by simp, hhd, by simp [updateFirst, hhd]⟩
    · have hex : envNameExists tl e = true := by
        rw [envNameExists_eq_true] at h ⊢
        rcases h with ⟨l, hl, hle⟩
        rcases List.mem_cons.mp hl with rfl | hl
        · exact absurd hle hhd
        · exact ⟨l, hl, hle⟩
      obtain ⟨pre, link, post, heq, hpre, hlink, hupd⟩ := ih hex
      refine ⟨hd :: pre, link, post, by simp [heq], ?_, hlink, ?_⟩
      · intro l hl
        rcases List.mem_cons.mp hl with rfl | hl
        · exact hhd
        · exact hpre l hl
      · simp [updateFirst, hhd, hupd]

lemma commitLinks_file_self (st : LinksState) (ls : List Link) :
    (commitLinks st ls).file =
      some (String.join (((commitLinks st ls).links.getAll).map
        (fun link => envPair link ++ "\n"))) := by
  simpa [Links.getAll, commitLinks_links] using commitLinks_file st ls

/-- A Link Store state as it stands immediately after construction:
`new Links(directory, args)` over a filesystem whose environment-file
content is `file`; construction performs no file write, so that content
carries over untouched. -/
def initialState (directory : String) (args : Option (List Link))
    (file : Option String) : LinksState :=
  { links := Links.new directory args, file := file }

/-- Claim C9: `getEnvPairs()` returns a sequence with the same length and order
as `getAll()`, whose i-th element is exactly the `envName=projectURL`
string of the i-th link. -/
theorem getEnvPairs_matches_getAll (links : Links) :
    links.getEnvPairs = links.getAll.map envPair ∧
    links.getEnvPairs.length = links.getAll.length :=
  ⟨rfl, by simp [Links.getEnvPairs, Links.getAll]⟩

/-- Claim C10: constructing a Links store with a pre-existing list accepts that
list verbatim with no validation — a store whose initial set violates the
distinct-`envName` invariant can be constructed — and construction alone
never writes the environment file (prior file content carries over). -/
theorem construction_unvalidated :
    (∀ (directory : String) (args : List Link) (file : Option String),
      (initialState directory (some args) file).links._links = args ∧
      (initialState directory (some args) file).file = file) ∧
    (∀ (directory : String) (file : Option String),
      (initialState directory none file).links._links = [] ∧
      (initialState directory none file).file = file) ∧
    ¬ distinctEnvNames (initialState "" (some [dummyLink, dummyLink]) none).links._links :=
  ⟨fun _ _ _ => ⟨rfl, rfl⟩, fun _ _ => ⟨rfl, rfl⟩, by decide⟩

/-- Claim C5: `add` of a candidate link with any required field missing, null or
empty fails with `INVALID_PARAMETERS` and leaves the state (in particular
the environment file) untouched. -/
theorem add_invalid_parameters (st : LinksState) (newLink : Link)
    (h : falsy newLink.projectID = true ∨ falsy newLink.projectURL = true ∨
      falsy newLink.envName = true) :
    (st.add newLink).1 = .error .INVALID_PARAMETERS ∧ (st.add newLink).2 = st := by
  have hc : (falsy newLink.projectID || falsy newLink.projectURL ||
      falsy newLink.envName) = true := by
    rcases h with h | h | h <;> simp [h]
  simp [LinksState.add, validateLink, hc]

/-- Witness for C5: the unit test's all-null candidate link. -/
theorem add_invalid_parameters_witness :
    (emptyLinksState.add
        { projectID := none, projectURL := none, envName := none, linkType := none }).1 =
      .error .INVALID_PARAMETERS ∧
    (emptyLinksState.add
        { projectID := none, projectURL := none, envName := none, linkType := none }).2 =
      emptyLinksState :=
  add_invalid_parameters emptyLinksState
    { projectID := none, projectURL := none, envName := none, linkType := none }
    (Or.inl rfl)

/-- Claim C2: after every successful `add`, `update` or `delete`, the
environment file holds exactly, in current list order, one line per
remaining link, each line `envName=projectURL` followed by a newline; the
content is determined by the new list alone, so prior file content is
fully overwritten. -/
theorem mutation_rewrites_env_file (st : LinksState) (op : LinkOp)
    (h : (applyOp st op).1 = .ok ()) :
    (applyOp st op).2.file =
      some (String.join (((applyOp st op).2.links.getAll).map
        (fun link => envPair link ++ "\n"))) := by
  cases op with
  | addOp newLink =>
    simp only [applyOp] at h ⊢
    unfold LinksState.add at h ⊢
    cases hv : validateLink newLink st.links._links with
    | error e => simp [hv] at h
    | ok link => simpa [hv] using commitLinks_file_self st (st.links._links ++ [link])
  | updateOp e nE nU =>
    obtain ⟨_, _, _, _, heq⟩ := update_ok_inv (by simpa [applyOp] using h)
    simp only [applyOp, heq]
    exact commitLinks_file_self st (updateFirst st.links._links e nE nU)
  | deleteOp e =>
    simp only [applyOp] at h ⊢
    unfold LinksState.delete at h ⊢
    cases hex : envNameExists st.links._links e with
    | false => simp [hex] at h
    | true =>
      simpa [hex] using
        commitLinks_file_self st
          (st.links._links.filter (fun link => link.envName != some e))

lemma falsy_eq_false {o : Option String} (h : falsy o = false) : o = some (o.getD "") := by
  cases o with
  | none => simp [falsy] at h
  | some s => rfl

lemma add_preserves_distinct (st : LinksState) (newLink : Link)
    (h : distinctEnvNames st.links._links) :
    distinctEnvNames (st.add newLink).2.links._links := by
  unfold LinksState.add
  cases hv : validateLink newLink st.links._links with
  | error e => exact h
  | ok link =>
    obtain ⟨rfl, _, _, henv, hex⟩ := validateLink_ok hv
    simp only [commitLinks_links]
    unfold distinctEnvNames at h ⊢
    rw [List.map_append, List.nodup_append]
    refine ⟨h, List.nodup_singleton _, ?_⟩
    intro a ha hmem
    simp only [List.map_cons, List.map_nil, List.mem_singleton] at hmem
    subst hmem
    rw [List.mem_map] at ha
    obtain ⟨l, hl, hle⟩ := ha
    exact envNameExists_eq_false.mp hex l hl (hle.trans (falsy_eq_false henv))

lemma update_preserves_distinct (st : LinksState) (e : String) (nE nU : Option String)
    (h : distinctEnvNames st.links._links) :
    distinctEnvNames (st.update e nE nU).2.links._links := by
  cases hex : envNameExists st.links._links e with
  | false => simpa [LinksState.update, hex] using h
  | true =>
    cases hnE : falsy nE with
    | true => simpa [LinksState.update, hex, hnE] using h
    | false =>
      cases hnU : falsy nU with
      | true => simpa [LinksState.update, hex, hnE, hnU] using h
      | false =>
        cases hcol : (nE != some e && envNameExists st.links._links (nE.getD "")) with
        | true => simpa [LinksState.update, hex, hnE, hnU, hcol] using h
        | false =>
          have hres : (st.update e nE nU).2 =
              commitLinks st (updateFirst st.links._links e nE nU) := by
            simp [LinksState.update, hex, hnE, hnU, hcol]
          rw [hres, commitLinks_links]
          obtain ⟨pre, link, post, heq, _, hlink, hupd⟩ := updateFirst_split nE nU hex
          rw [hupd]
          rw [heq] at h
          unfold distinctEnvNames at h ⊢
          simp only [List.map_append, List.map_cons] at h ⊢
          by_cases hsame : nE = some e
          · simpa [hsame, hlink] using h
          · have hfresh : envNameExists st.links._links (nE.getD "") = false := by
              cases hcond : (nE != some e) with
              | false => simp [hsame] at hcond
              | true =>
                cases hf : envNameExists st.links._links (nE.getD "") with
                | false => rfl
                | true => rw [hcond, hf] at hcol; simp at hcol
            rw [List.nodup_middle, List.nodup_cons] at h ⊢
            refine ⟨?_, h.2⟩
            intro hmem
            rw [List.mem_append] at hmem
            have : ∃ l ∈ pre ++ post, Link.envName l = nE := by
              rcases hmem with hmem | hmem <;>
                · rw [List.mem_map] at hmem
                  obtain ⟨l, hl, hle⟩ := hmem
                  exact ⟨l, List.mem_append.mpr (by tauto), hle⟩
            obtain ⟨l, hl, hle⟩ := this
            have hlmem : l ∈ st.links._links := by
              rw [heq, List.mem_append, List.mem_cons]
              rw [List.mem_append] at hl
              tauto
            exact envNameExists_eq_false.mp hfresh l hlmem
              (hle.trans (falsy_eq_false hnE))

lemma delete_preserves_distinct (st : LinksState) (e : String)
    (h : distinctEnvNames st.links._links) :
    distinctEnvNames (st.delete e).2.links._links := by
  cases hex : envNameExists st.links._links e with
  | false => simpa [LinksState.delete, hex] using h
  | true =>
    have hres : (st.delete e).2 =
        commitLinks st (st.links._links.filter (fun link => link.envName != some e)) := by
      simp [LinksState.delete, hex]
    rw [hres, commitLinks_links]
    exact List.Nodup.sublist ((List.filter_sublist _).map _) h

lemma applyOp_preserves_distinct (st : LinksState) (op : LinkOp)
    (h : distinctEnvNames st.links._links) :
    distinctEnvNames (applyOp st op).2.links._links := by
  cases op with
  | addOp newLink => exact add_preserves_distinct st newLink h
  | updateOp e nE nU => exact update_preserves_distinct st e nE nU h
  | deleteOp e => exact delete_preserves_distinct st e h

/-- Claim C1: from any state whose `envName` values are pairwise distinct, any
sequence of `add`/`update`/`delete` operations (failed ones leave the
state untouched, so this covers every sequence of successful operations)
reaches only states whose `envName` values are pairwise distinct. -/
theorem distinct_envNames_invariant (st : LinksState) (ops : List LinkOp)
    (h : distinctEnvNames st.links._links) :
    distinctEnvNames (runOps st ops).links._links := by
  induction ops generalizing st with
  | nil => exact h
  | cons op ops ih => exact ih _ (applyOp_preserves_distinct st op h)

/-- Witness for C1: an add, a rename, and a delete starting from the empty
store. -/
theorem distinct_envNames_invariant_witness :
    distinctEnvNames emptyLinksState.links._links ∧
    distinctEnvNames
      (runOps emptyLinksState
        [.addOp dummyLink, .addOp { dummyLink with envName := some "otherEnv" },
         .updateOp "ENV_NAME" (some "NEW_ENV") (some "NEW_URL"),
         .deleteOp "otherEnv"]).links._links :=
  ⟨by decide,
    distinct_envNames_invariant emptyLinksState
      [.addOp dummyLink, .addOp { dummyLink with envName := some "otherEnv" },
       .updateOp "ENV_NAME" (some "NEW_ENV") (some "NEW_URL"),
       .deleteOp "otherEnv"] (by decide)⟩

/-- Witness for C2: adding the unit test's `dummyLink` to an empty store. -/
theorem mutation_rewrites_env_file_witness :
    (applyOp emptyLinksState (.addOp dummyLink)).2.file =
      some (String.join (((applyOp emptyLinksState (.addOp dummyLink)).2.links.getAll).map
        (fun link => envPair link ++ "\n"))) :=
  mutation_rewrites_env_file emptyLinksState (.addOp dummyLink) rfl

/-- A store holding exactly the unit test's `dummyLink`, with its
environment file written. -/
def oneLinkState : LinksState :=
  { links := { _links := [dummyLink], filePath := linksFileName },
    file := some "ENV_NAME=projectURL\n" }

/-- A store holding `dummyLink` plus a second link `ENV_TO_UPDATE`, as in
the unit test's update-collision scenario. -/
def twoLinkState : LinksState :=
  { links := { _links := [dummyLink, { dummyLink with envName := some "ENV_TO_UPDATE" }],
               filePath := linksFileName },
    file := some "ENV_NAME=projectURL\nENV_TO_UPDATE=projectURL\n" }

/-- Claim C3: a status update supplying a non-empty `projectID`, a channel type
and a non-empty `status` emits, on a known project, exactly one
corresponding status-changed event carrying the supplied status and the
optional payload fields; on an unknown project it fails `NOT_FOUND`, the
machine is unchanged and no event is emitted. -/
theorem updateStatus_known_emits_once (m : StatusMachine) (req : UpdateStatusParams)
    (projectID : String) (t : StatusType) (status : String)
    (hpid : req.projectID = some projectID) (hpid' : projectID ≠ "")
    (ht : req.statusType = some t)
    (hst : req.status = some status) (hst' : status ≠ "") :
    (m.knownProjects.contains projectID = true →
      (updateStatus m req).1 = .ok () ∧
      (updateStatus m req).2.2 =
        [{ kind := kindOf t, projectID := projectID, status := status,
           errorMsg := req.errorMsg, detailedStatus := req.detailedStatus }]) ∧
    (m.knownProjects.contains projectID = false →
      (updateStatus m req).1 = .error .NOT_FOUND ∧
      (updateStatus m req).2.1 = m ∧ (updateStatus m req).2.2 = []) := by
  unfold updateStatus
  rw [hpid, ht, hst]
  have h1 : (projectID == "" || status == "") = false := by
    simp [hpid', hst']
  constructor
  · intro hk
    have hk' : projectID ∈ m.knownProjects := by simpa using hk
    simp [h1, hk']
  · intro hk
    have hk' : projectID ∉ m.knownProjects := by simpa using hk
    simp [h1, hk']

/-- The status machine knowing exactly project `p1`. -/
def p1Machine : StatusMachine :=
  { knownProjects := ["p1"], appStatuses := [], buildStatuses := [] }

/-- A status machine knowing no project at all. -/
def noProjectMachine : StatusMachine :=
  { knownProjects := [], appStatuses := [], buildStatuses := [] }

/-- The spec's concrete scenario request:
`{projectID:'p1', type:'appState', status:'started'}`. -/
def startedReq : UpdateStatusParams :=
  { projectID := some "p1", statusType := some .appState, status := some "started",
    errorMsg := none, detailedStatus := none }

/-- Witness for C3: the spec's concrete scenario, on a machine knowing
`p1` and on one that does not. -/
theorem updateStatus_known_emits_once_witness :
    ((updateStatus p1Machine startedReq).1 = .ok () ∧
      (updateStatus p1Machine startedReq).2.2 =
        [{ kind := .appStatusChanged, projectID := "p1", status := "started",
           errorMsg := none, detailedStatus := none }]) ∧
    ((updateStatus noProjectMachine startedReq).1 = .error .NOT_FOUND ∧
      (updateStatus noProjectMachine startedReq).2.1 = noProjectMachine ∧
      (updateStatus noProjectMachine startedReq).2.2 = []) :=
  ⟨(updateStatus_known_emits_once p1Machine startedReq "p1" .appState "started"
      rfl (by decide) rfl rfl (by decide)).1 rfl,
   (updateStatus_known_emits_once noProjectMachine startedReq "p1" .appState "started"
      rfl (by decide) rfl rfl (by decide)).2 rfl⟩

/-- Counterexample to C4 as stated: a candidate link whose `envName`
(`ENV_NAME`) is already present in the store but whose other required
fields are null makes `add` fail with `INVALID_PARAMETERS`, not `EXISTS` —
the required-field check runs before the duplicate check. -/
theorem add_duplicate_not_exists_counterexample :
    envNameExists oneLinkState.links._links "ENV_NAME" = true ∧
    (oneLinkState.add
        { projectID := none, projectURL := none, envName := some "ENV_NAME",
          linkType := none }).1 = .error .INVALID_PARAMETERS ∧
    (Except.error (ε := ErrorCode) (α := Unit) .INVALID_PARAMETERS) ≠
      .error .EXISTS := by
  refine ⟨by decide, rfl, ?_⟩
  intro hcontra
  exact absurd (Except.error.inj hcontra) (by decide)

/-- Claim C4, amended: for every new link whose required fields are all present
and non-empty and whose `envName` is already in the store's set, `add`
fails with `EXISTS` and leaves the set and the environment file exactly as
they were. -/
theorem add_duplicate_envName_exists (st : LinksState) (newLink : Link) (envName : String)
    (hpid : falsy newLink.projectID = false) (hurl : falsy newLink.projectURL = false)
    (henv : newLink.envName = some envName) (hne : envName ≠ "")
    (hex : envNameExists st.links._links envName = true) :
    (st.add newLink).1 = .error .EXISTS ∧ (st.add newLink).2 = st := by
  have henvf : falsy newLink.envName = false := by
    rw [henv]; simp [falsy, hne]
  have hc : (falsy newLink.projectID || falsy newLink.projectURL ||
      falsy newLink.envName) = false := by
    simp [hpid, hurl, henvf]
  have hexists : envNameExists st.links._links (newLink.envName.getD "") = true := by
    rw [henv]; exact hex
  simp [LinksState.add, validateLink, hc, hexists]

/-- Witness for C4 (amended): re-adding a valid link under the already
present `ENV_NAME`. -/
theorem add_duplicate_envName_exists_witness :
    (oneLinkState.add { dummyLink with projectID := some "otherID" }).1 =
      .error .EXISTS ∧
    (oneLinkState.add { dummyLink with projectID := some "otherID" }).2 =
      oneLinkState :=
  add_duplicate_envName_exists oneLinkState { dummyLink with projectID := some "otherID" }
    "ENV_NAME" (by decide) (by decide) rfl (by decide) (by decide)

/-- Claim C6: with the target `envName` present and non-blank new values,
`update` fails with `EXISTS` exactly when the new name differs from the
old one and already occurs in the set (when the name is unchanged, no
uniqueness check is made against the entry itself); on that failure the
whole state is unchanged. Since the colliding name differs from the
target's, any link carrying it is necessarily a different link. -/
theorem update_collision_exists (st : LinksState) (envName n : String)
    (newProjectURL : Option String)
    (hfound : envNameExists st.links._links envName = true)
    (hn : n ≠ "") (hurl : falsy newProjectURL = false) :
    ((st.update envName (some n) newProjectURL).1 = .error .EXISTS ↔
      n ≠ envName ∧ envNameExists st.links._links n = true) ∧
    ((st.update envName (some n) newProjectURL).1 = .error .EXISTS →
      (st.update envName (some n) newProjectURL).2 = st) := by
  have hnE : falsy (some n) = false := by simp [falsy, hn]
  by_cases hne : n = envName
  · subst hne
    have hres : (st.update n (some n) newProjectURL).1 = .ok () := by
      simp [LinksState.update, hfound, hnE, hurl]
    rw [hres]
    constructor
    · constructor
      · intro hcontra; simp at hcontra
      · rintro ⟨hc, _⟩; exact absurd rfl hc
    · intro hcontra; simp at hcontra
  · have hbne : ((some n : Option String) != some envName) = true := by
      simp [hne]
    cases hex2 : envNameExists st.links._links n with
    | true =>
      have hres1 : (st.update envName (some n) newProjectURL).1 = .error .EXISTS := by
        simp [LinksState.update, hfound, hnE, hurl, hbne, hex2]
      have hres2 : (st.update envName (some n) newProjectURL).2 = st := by
        simp [LinksState.update, hfound, hnE, hurl, hbne, hex2]
      exact ⟨by rw [hres1]; simp [hne], fun _ => hres2⟩
    | false =>
      have hres1 : (st.update envName (some n) newProjectURL).1 = .ok () := by
        simp [LinksState.update, hfound, hnE, hurl, hbne, hex2]
      rw [hres1]
      constructor
      · constructor
        · intro hcontra; simp at hcontra
        · rintro ⟨_, hcontra⟩; simp at hcontra
      · intro hcontra; simp at hcontra

/-- Witness for C6: the unit test's collision — renaming `ENV_TO_UPDATE`
to the already-taken `ENV_NAME`. -/
theorem update_collision_exists_witness :
    (((twoLinkState.update "ENV_TO_UPDATE" (some "ENV_NAME") (some "projectURL")).1 =
        .error .EXISTS ↔
      "ENV_NAME" ≠ "ENV_TO_UPDATE" ∧
        envNameExists twoLinkState.links._links "ENV_NAME" = true) ∧
    ((twoLinkState.update "ENV_TO_UPDATE" (some "ENV_NAME") (some "projectURL")).1 =
        .error .EXISTS →
      (twoLinkState.update "ENV_TO_UPDATE" (some "ENV_NAME") (some "projectURL")).2 =
        twoLinkState)) :=
  update_collision_exists twoLinkState "ENV_TO_UPDATE" "ENV_NAME" (some "projectURL")
    (by decide) (by decide) (by decide)

/-- Claim C7: a successful `update` splits the list around the matched link:
only that link's `envName` and `projectURL` change (its `projectID` and
other fields, and every other link, are untouched), and when the name
changed no link with the old `envName` remains. -/
theorem update_frame (st : LinksState) (envName : String)
    (newEnvName newProjectURL : Option String)
    (hd : distinctEnvNames st.links._links)
    (hok : (st.update envName newEnvName newProjectURL).1 = .ok ()) :
    ∃ pre link post,
      st.links._links = pre ++ link :: post ∧
      link.envName = some envName ∧
      (st.update envName newEnvName newProjectURL).2.links._links =
        pre ++ { link with envName := newEnvName, projectURL := newProjectURL } :: post ∧
      (newEnvName ≠ some envName →
        ∀ l ∈ (st.update envName newEnvName newProjectURL).2.links._links,
          l.envName ≠ some envName) := by
  obtain ⟨hex, hnE, hnU, hcol, heq⟩ := update_ok_inv hok
  obtain ⟨pre, link, post, hsplit, hpre, hlink, hupd⟩ :=
    updateFirst_split newEnvName newProjectURL hex
  refine ⟨pre, link, post, hsplit, hlink, ?_, ?_⟩
  · rw [heq, commitLinks_links, hupd]
  · intro hneq l hl
    rw [heq, commitLinks_links, hupd] at hl
    rw [List.mem_append, List.mem_cons] at hl
    rcases hl with hl | rfl | hl
    · exact hpre l hl
    · simpa using hneq
    · rw [hsplit] at hd
      unfold distinctEnvNames at hd
      simp only [List.map_append, List.map_cons] at hd
      rw [List.nodup_middle, List.nodup_cons] at hd
      intro hle
      exact hd.1 (List.mem_append.mpr
        (Or.inr (List.mem_map.mpr ⟨l, hl, hle.trans hlink.symm⟩)))

/-- Witness for C7: the unit test's rename of `ENV_NAME` to `NEW_ENV`. -/
theorem update_frame_witness :
    ∃ pre link post,
      oneLinkState.links._links = pre ++ link :: post ∧
      link.envName = some "ENV_NAME" ∧
      (oneLinkState.update "ENV_NAME" (some "NEW_ENV") (some "NEW_URL")).2.links._links =
        pre ++ { link with envName := some "NEW_ENV", projectURL := some "NEW_URL" } :: post ∧
      (some "NEW_ENV" ≠ some "ENV_NAME" →
        ∀ l ∈ (oneLinkState.update "ENV_NAME" (some "NEW_ENV") (some "NEW_URL")).2.links._links,
          l.envName ≠ some "ENV_NAME") :=
  update_frame oneLinkState "ENV_NAME" (some "NEW_ENV") (some "NEW_URL") (by decide) rfl

lemma link_update_self (l : Link) (e u : Option String)
    (he : l.envName = e) (hu : l.projectURL = u) :
    ({ l with envName := e, projectURL := u } : Link) = l := by
  cases l
  simp_all

/-- Claim C8: updating a link to its own current `envName` and `projectURL`
succeeds and leaves the link set observably identical. -/
theorem update_noop (st : LinksState) (envName projectURL : String) (link : Link)
    (hd : distinctEnvNames st.links._links)
    (hmem : link ∈ st.links._links)
    (henv : link.envName = some envName) (hurl : link.projectURL = some projectURL)
    (hne : envName ≠ "") (hnu : projectURL ≠ "") :
    (st.update envName (some envName) (some projectURL)).1 = .ok () ∧
    (st.update envName (some envName) (some projectURL)).2.links._links =
      st.links._links := by
  have hex : envNameExists st.links._links envName = true :=
    envNameExists_eq_true.mpr ⟨link, hmem, henv⟩
  have hnE : falsy (some envName) = false := by simp [falsy, hne]
  have hnU : falsy (some projectURL) = false := by simp [falsy, hnu]
  have hres1 : (st.update envName (some envName) (some projectURL)).1 = .ok () := by
    simp [LinksState.update, hex, hnE, hnU]
  refine ⟨hres1, ?_⟩
  obtain ⟨_, _, _, _, heq⟩ := update_ok_inv hres1
  rw [heq, commitLinks_links]
  obtain ⟨pre, l0, post, hsplit, hpre, hl0, hupd⟩ :=
    updateFirst_split (some envName) (some projectURL) hex
  have hl0link : l0 = link := by
    rw [hsplit] at hmem hd
    unfold distinctEnvNames at hd
    simp only [List.map_append, List.map_cons] at hd
    rw [List.nodup_middle, List.nodup_cons] at hd
    rw [List.mem_append, List.mem_cons] at hmem
    rcases hmem with hm | hm | hm
    · exact absurd henv (hpre link hm)
    · exact hm.symm
    · exact absurd (List.mem_append.mpr
        (Or.inr (List.mem_map.mpr ⟨link, hm, henv.trans hl0.symm⟩))) hd.1
  subst hl0link
  rw [hupd, hsplit, link_update_self l0 (some envName) (some projectURL) henv hurl]

/-- Witness for C8: updating `ENV_NAME` with its own current values. -/
theorem update_noop_witness :
    (oneLinkState.update "ENV_NAME" (some "ENV_NAME") (some "projectURL")).1 = .ok () ∧
    (oneLinkState.update "ENV_NAME" (some "ENV_NAME") (some "projectURL")).2.links._links =
      oneLinkState.links._links :=
  update_noop oneLinkState "ENV_NAME" "projectURL" dummyLink (by decide)
    (by decide) rfl rfl (by decide) (by decide)
